import Mathlib

/-!
Shallow embedding of the Scrivener-to-Obsidian converter
(src/app/converter.py) and verification of its specification claims.

Strings are modelled by Lean `String` (lists of characters); Python file
system reads and the external rich-text flattening library are modelled
by explicit parameters (records of total functions and `Except` values),
so that every definition is executable.  Python `try/except` blocks are
modelled by `Except` / `Option` values that the embedded code inspects.
-/

namespace Scriv

/-- Characters stripped by the Python no-argument `str.strip()`
(modelled on the common whitespace characters). -/
def pySpaceChar (c : Char) : Bool :=
  c = ' ' || c = '\t' || c = '\n' || c = '\r' || c = '\x0b' || c = '\x0c'

/-- Drop the characters satisfying `p` from both ends of a list, as
Python `str.strip` does. -/
def dropEnds (p : Char → Bool) (l : List Char) : List Char :=
  ((l.dropWhile p).reverse.dropWhile p).reverse

/-- Python `s.strip()` on a string. -/
def pyStripWs (s : String) : String :=
  String.mk (dropEnds pySpaceChar s.data)

/-- The characters replaced by the sanitizer: the regex class
matching any of the nine characters in angle-colon-quote-slash-
backslash-pipe-question-star. -/
def badChar (c : Char) : Bool :=
  c = '<' || c = '>' || c = ':' || c = '"' || c = '/' || c = '\\' ||
    c = '|' || c = '?' || c = '*'

/-- First sanitizer step: replace every problematic character by a dash
(the Python `re.sub` on the character class). -/
def replaceBad (l : List Char) : List Char :=
  l.map (fun c => if badChar c then '-' else c)

/-- Characters stripped by the sanitizer: `name.strip(" .")`. -/
def dotSpace (c : Char) : Bool :=
  c = ' ' || c = '.'

/-- Third sanitizer step: collapse every run of dashes into a single
dash (the Python `re.sub` replacing one-or-more dashes by one). -/
def collapseDashes : List Char → List Char
  | [] => []
  | [c] => [c]
  | a :: b :: rest =>
      if a = '-' && b = '-' then collapseDashes (b :: rest)
      else a :: collapseDashes (b :: rest)

/-- The sanitizer pipeline on character lists: replace, strip, collapse. -/
def sanitizeCore (l : List Char) : List Char :=
  collapseDashes (dropEnds dotSpace (replaceBad l))

/-- `sanitize_filename` from converter.py: make a filename safe for the
filesystem, falling back to "Untitled" when the result is empty. -/
def sanitize_filename (s : String) : String :=
  let r := sanitizeCore s.data
  if r.isEmpty then "Untitled" else String.mk r

/-- The Python format `f"{n:02d}"`: decimal digits of `n` left-padded
with zeros to at least width two. -/
def pad2 (n : Nat) : String :=
  let s := toString n
  String.mk (List.replicate (2 - s.length) '0') ++ s

/-- ASCII lowercasing, modelling Python `str.lower` (the source only
feeds label/status names through it before ASCII-class slugging). -/
def pyLower (s : String) : String :=
  String.mk (s.data.map Char.toLower)

/-- Characters kept by the tag slugging regex class
(letters, digits, underscore, dash). -/
def slugChar (c : Char) : Bool :=
  ('a' ≤ c && c ≤ 'z') || ('A' ≤ c && c ≤ 'Z') ||
    ('0' ≤ c && c ≤ '9') || c = '_' || c = '-'

/-- Tag slugging from generate_markdown: lowercase, then replace every
character outside the kept class by a dash. -/
def slug (s : String) : String :=
  String.mk ((pyLower s).data.map (fun c => if slugChar c then c else '-'))

/-- Python `s.replace(chr(34), backslash-quote)`: escape the double
quotes inside a YAML scalar. -/
def escapeQ (s : String) : String :=
  String.mk (s.data.flatMap (fun c => if c = '"' then ['\\', '"'] else [c]))

/-- Python truthiness of an optional string (`if label:` style tests):
true exactly when present and non-empty. -/
def truthy : Option String → Bool
  | none => false
  | some s => !s.isEmpty

/-- `pathlib` suffix of a file name: the final extension including its
dot, empty when there is no dot, the dot is the first character, or the
dot is the last character. -/
def pySuffix (name : String) : String :=
  let cs := name.data
  let revAfter := cs.reverse.takeWhile (fun c => c ≠ '.')
  if revAfter.length = cs.length then ""
  else if revAfter.length = 0 then ""
  else if revAfter.length = cs.length - 1 then ""
  else String.mk ('.' :: revAfter.reverse)

/-- A rich-text file as the extractor sees it: whether the path exists,
and the (permissively decoded) text read from it. -/
structure RtfFile where
  exists_ : Bool
  content : String
deriving Repr

/-- `read_rtf` from converter.py.  The external `rtf_to_text` library
call is modelled by the `flatten` parameter; its `Except.error` case is
the exception caught by the `try/except` in the source. -/
def read_rtf (f : RtfFile) (flatten : String → Except String String) : String :=
  if f.exists_ = false then ""
  else if pyStripWs f.content = "" then ""
  else
    match flatten f.content with
    | .ok t => pyStripWs t
    | .error _ => ""

/-- The synopsis sidecar read: `read_text().strip()` when the file
exists, the empty string otherwise.  `none` models a missing file. -/
def readSynopsis : Option String → String
  | some raw => pyStripWs raw
  | none => ""

/-- Split a character list on a separator character, keeping empty
pieces, as Python `str.split` with an explicit separator does. -/
def splitOnChar (sep : Char) : List Char → List (List Char)
  | [] => [[]]
  | c :: rest =>
      if c = sep then [] :: splitOnChar sep rest
      else
        match splitOnChar sep rest with
        | [] => [[c]]
        | h :: t => (c :: h) :: t

/-- Python `s.split(newline)`: the pieces of `s` between newline
characters, including empty ones. -/
def pySplitNl (s : String) : List String :=
  (splitOnChar '\n' s.data).map String.mk

/-- The synopsis portion of the frontmatter: a literal block with
two-space indentation when the synopsis holds a newline, a quoted
scalar otherwise, nothing when absent or empty. -/
def synopsisLines (synopsis : Option String) : List String :=
  match synopsis with
  | none => []
  | some s =>
      if s.isEmpty then []
      else if s.data.contains '\n' then
        "synopsis: |" :: (pySplitNl s).map (fun line => "  " ++ line)
      else
        ["synopsis: \"" ++ escapeQ s ++ "\""]

/-- The `tags` list built by generate_markdown: label and status
slugs, each present only when the field is truthy. -/
def tagList (label status : Option String) : List String :=
  (if truthy label then ["label/" ++ slug (label.getD "")] else []) ++
    (if truthy status then ["status/" ++ slug (status.getD "")] else [])

/-- The tags portion of the frontmatter: a header and one indented
sequence entry per tag, nothing when there are no tags. -/
def tagLines (label status : Option String) : List String :=
  if (tagList label status).isEmpty then []
  else "tags:" :: (tagList label status).map (fun tag => "  - " ++ tag)

/-- The body lines after the frontmatter: the content verbatim when
non-empty, then the notes callout when the notes are truthy. -/
def bodyLines (content : String) (notes : Option String) : List String :=
  (if content.isEmpty then [] else [content, ""]) ++
    (if truthy notes then
      "> [!note] Author Notes" ::
        (pySplitNl (notes.getD "")).map (fun line => "> " ++ line) ++ [""]
     else [])

/-- The full line list built by `generate_markdown`, in source order:
opening fence, title, synopsis, tags, compile flag, closing fence,
blank line, body. -/
def mdLines (title content : String) (synopsis notes label status : Option String)
    (include_in_compile : Bool) : List String :=
  ["---", "title: \"" ++ escapeQ title ++ "\""] ++
    synopsisLines synopsis ++
    tagLines label status ++
    ["include_in_compile: " ++ (if include_in_compile then "true" else "false"),
      "---", ""] ++
    bodyLines content notes

/-- `generate_markdown` from converter.py: the lines joined by
newlines. -/
def generate_markdown (title content : String)
    (synopsis notes label status : Option String)
    (include_in_compile : Bool) : String :=
  String.intercalate "\n"
    (mdLines title content synopsis notes label status include_in_compile)

/-- The frontmatter block of a rendered line list: the lines between
the opening fence and the next fence line. -/
def frontmatter (lines : List String) : List String :=
  (lines.drop 1).takeWhile (fun line => line != "---")

/-- A node of the Scrivener binder tree (`BinderItem` in converter.py).
The Python `parent` back-reference is not stored; instead every
traversal below carries the ancestor chain explicitly, which is exactly
what the parent chain denotes in a rooted tree. -/
inductive BinderItem : Type where
  | mk (uuid title item_type : String) (include_in_compile : Bool)
      (label status : Option String) (position : Nat)
      (children : List BinderItem) : BinderItem
deriving Repr

def BinderItem.uuid : BinderItem → String
  | .mk u _ _ _ _ _ _ _ => u

def BinderItem.title : BinderItem → String
  | .mk _ t _ _ _ _ _ _ => t

def BinderItem.item_type : BinderItem → String
  | .mk _ _ ty _ _ _ _ _ => ty

def BinderItem.include_in_compile : BinderItem → Bool
  | .mk _ _ _ inc _ _ _ _ => inc

def BinderItem.label : BinderItem → Option String
  | .mk _ _ _ _ lab _ _ _ => lab

def BinderItem.status : BinderItem → Option String
  | .mk _ _ _ _ _ st _ _ => st

def BinderItem.position : BinderItem → Nat
  | .mk _ _ _ _ _ _ p _ => p

def BinderItem.children : BinderItem → List BinderItem
  | .mk _ _ _ _ _ _ _ cs => cs

/-- `is_folder` from converter.py: the four folder-kind type strings. -/
def BinderItem.is_folder (it : BinderItem) : Bool :=
  it.item_type = "Folder" || it.item_type = "DraftFolder" ||
    it.item_type = "ResearchFolder" || it.item_type = "TrashFolder"

/-- `is_text` from converter.py. -/
def BinderItem.is_text (it : BinderItem) : Bool :=
  it.item_type = "Text"

/-- `is_trash` from converter.py. -/
def BinderItem.is_trash (it : BinderItem) : Bool :=
  it.item_type = "TrashFolder"

mutual

/-- `BinderItem.walk` from converter.py (an item followed by the walks
of its children, pre-order), paired with the ancestor chain that the
Python parent pointers provide: nearest ancestor first. -/
def walkWith (it : BinderItem) (anc : List BinderItem) :
    List (List BinderItem × BinderItem) :=
  match it with
  | .mk u t ty inc lab st p cs =>
      (anc, BinderItem.mk u t ty inc lab st p cs) ::
        walkWithL cs (BinderItem.mk u t ty inc lab st p cs :: anc)

/-- The concatenated walks of a forest, in order (`all_items` iterates
the root items this way). -/
def walkWithL (items : List BinderItem) (anc : List BinderItem) :
    List (List BinderItem × BinderItem) :=
  match items with
  | [] => []
  | c :: rest => walkWith c anc ++ walkWithL rest anc

end

/-- The path segment contributed by an item: the two-digit one-based
position, a space, and the sanitized title (built this way in both the
folder and the text branch of convert_project, and in get_item_path). -/
def segName (it : BinderItem) : String :=
  pad2 (it.position + 1) ++ " " ++ sanitize_filename it.title

/-- `get_item_path` from convert_project: walk the ancestor chain
(nearest first), keep the non-trash ancestors with their prefixed
segment names, and reverse into root-first order. -/
def get_item_path (anc : List BinderItem) : List String :=
  ((anc.filter (fun a => !a.is_trash)).map segName).reverse

/-- One filesystem or report event of the conversion loop, in the
order the source performs them. -/
inductive Ev : Type where
  /-- The destination root `output_dir.mkdir(parents, exist_ok)`. -/
  | mkdirRoot : Ev
  /-- `folder_path.mkdir` in the folder branch (counted). -/
  | mkdirFolder (path : List String) : Ev
  /-- `file_dir.mkdir` in the text branch (not counted). -/
  | mkdirParent (path : List String) : Ev
  /-- `file_path.write_text` of a generated document. -/
  | writeFile (path : List String) (content : String) : Ev
  /-- An entry appended to `result.skipped`. -/
  | skip (msg : String) : Ev
  /-- An entry appended to `result.errors`. -/
  | err (msg : String) : Ev
deriving Repr, DecidableEq

/-- The content store and external library as convert_project sees
them: each uuid has a content file, an optional synopsis sidecar, a
notes file, and `flatten` is the rich-text library call. -/
structure ContentEnv where
  contentFile : String → RtfFile
  synopsisFile : String → Option String
  notesFile : String → RtfFile
  flatten : String → Except String String

/-- An oracle for the per-item `try/except`: `some e` means the body
raises an exception rendered as `e` while processing that item, `none`
means the body runs to completion.  A run on a healthy filesystem is
the `noExc` instantiation. -/
def ExcOracle : Type := BinderItem → Option String

/-- The oracle of a run in which no per-item exception occurs. -/
def noExc : ExcOracle := fun _ => none

/-- The body of the conversion loop for one visited item, given its
ancestor chain: the events it produces, in source order. -/
def processItem (env : ContentEnv) (exc : ExcOracle)
    (anc : List BinderItem) (it : BinderItem) : List Ev :=
  if it.is_trash then [.skip (it.title ++ " (trash)")]
  else if anc.any (fun a => a.is_trash) then []
  else
    match exc it with
    | some e => [.err ("Error converting '" ++ it.title ++ "': " ++ e)]
    | none =>
        let parts := get_item_path anc
        if it.is_folder then
          [.mkdirFolder (parts ++ [segName it])]
        else if it.is_text then
          let content := read_rtf (env.contentFile it.uuid) env.flatten
          let synopsis := readSynopsis (env.synopsisFile it.uuid)
          let notes := read_rtf (env.notesFile it.uuid) env.flatten
          let markdown := generate_markdown it.title content
            (if synopsis.isEmpty then none else some synopsis)
            (if notes.isEmpty then none else some notes)
            it.label it.status it.include_in_compile
          (if parts.isEmpty then [] else [.mkdirParent parts]) ++
            [.writeFile (parts ++ [segName it ++ ".md"]) markdown]
        else []

/-- The event trace of the conversion loop over a parsed binder: the
destination root creation, then the loop body at every walk entry. -/
def convertEvents (env : ContentEnv) (exc : ExcOracle)
    (roots : List BinderItem) : List Ev :=
  Ev.mkdirRoot :: (walkWithL roots []).flatMap
    (fun p => processItem env exc p.1 p.2)

/-- `ConversionResult` from converter.py. -/
structure ConversionResult where
  success : Bool
  documents_converted : Nat
  folders_created : Nat
  errors : List String
  skipped : List String
deriving Repr, DecidableEq

/-- How one event mutates the accumulating result. -/
def aggStep (r : ConversionResult) : Ev → ConversionResult
  | .mkdirRoot => r
  | .mkdirParent _ => r
  | .mkdirFolder _ => { r with folders_created := r.folders_created + 1 }
  | .writeFile _ _ =>
      { r with documents_converted := r.documents_converted + 1 }
  | .skip m => { r with skipped := r.skipped ++ [m] }
  | .err m => { r with errors := r.errors ++ [m] }

/-- The result accumulated over a trace, starting from the
`ConversionResult(success=True)` the source creates. -/
def aggregate (evs : List Ev) : ConversionResult :=
  evs.foldl aggStep ⟨true, 0, 0, [], []⟩

/-- The final success policy: when any error was recorded, success is
re-evaluated to whether errors stay strictly below converted
documents. -/
def finalize (r : ConversionResult) : ConversionResult :=
  if r.errors.isEmpty then r
  else { r with success := decide (r.errors.length < r.documents_converted) }

/-- The source directory as `ScrivenerProject.__init__` probes it:
its rendered path, existence, directory-ness, the names it contains,
and the outcome of parsing the project index file (`Except.error`
models the XML parse exception). -/
structure SourceDir where
  path : String
  exists_ : Bool
  isDir : Bool
  entries : List String
  parsed : Except String (List BinderItem)

/-- `_find_scrivx`: the first directory entry whose suffix is
`.scrivx`. -/
def findScrivx (entries : List String) : Option String :=
  entries.find? (fun n => pySuffix n = ".scrivx")

/-- `ScrivenerProject.__init__`: the checked preconditions in source
order, then the parse outcome; each failure carries the exception
message the source formats. -/
def openProject (d : SourceDir) : Except String (List BinderItem) :=
  if d.exists_ = false then .error ("Project not found: " ++ d.path)
  else if d.isDir = false then .error ("Not a directory: " ++ d.path)
  else
    match findScrivx d.entries with
    | none => .error ("No .scrivx file found in " ++ d.path)
    | some _ => d.parsed

/-- `convert_project` from converter.py: open the project (an opening
failure returns a failed result with the single formatted error and no
events), otherwise create the destination and run the loop, finishing
with the success policy.  The second component is the event trace. -/
def convert_project (d : SourceDir) (env : ContentEnv) (exc : ExcOracle) :
    ConversionResult × List Ev :=
  match openProject d with
  | .error e => (⟨false, 0, 0, ["Could not open project: " ++ e], []⟩, [])
  | .ok roots =>
      let evs := convertEvents env exc roots
      (finalize (aggregate evs), evs)

/-- The written-file path of an event, when it is a write. -/
def writePath : Ev → Option (List String)
  | .writeFile p _ => some p
  | _ => none

/-- The created-directory path of an event, when it is a counted
folder creation. -/
def folderPath : Ev → Option (List String)
  | .mkdirFolder p => some p
  | _ => none

/-- The skip message of an event, when it is a skip notice. -/
def skipMsg : Ev → Option String
  | .skip m => some m
  | _ => none

/-- The error message of an event, when it is an error record. -/
def errMsg : Ev → Option String
  | .err m => some m
  | _ => none

/-- A content store in which every file is absent and the rich-text
library echoes its input: the environment of the concrete examples. -/
def envEmpty : ContentEnv :=
  ⟨fun _ => ⟨false, ""⟩, fun _ => none, fun _ => ⟨false, ""⟩, fun s => .ok s⟩

/-- A TrashFolder nested inside another TrashFolder. -/
def trashNested : BinderItem :=
  .mk "u-tn" "Nested" "TrashFolder" false none none 0 []

/-- A root TrashFolder whose only child is itself a TrashFolder. -/
def trashRoot : BinderItem :=
  .mk "u-tr" "Trash" "TrashFolder" false none none 0 [trashNested]

/-- A plain root-level text document. -/
def textA : BinderItem := .mk "ua" "A" "Text" false none none 0 []

/-- A second root-level text document. -/
def textB : BinderItem := .mk "ub" "B" "Text" false none none 1 []

/-- A third root-level text document. -/
def textC : BinderItem := .mk "uc" "C" "Text" false none none 2 []

/-- A text document sitting at sibling position 99. -/
def text99 : BinderItem := .mk "u99" "T" "Text" false none none 99 []

/-- An oracle under which processing the item titled "A" raises. -/
def excA : ExcOracle :=
  fun it => if it.title = "A" then some "boom" else none

/-- A well-formed source directory holding the given parsed binder. -/
def srcOk (roots : List BinderItem) : SourceDir :=
  ⟨"/tmp/p.scriv", true, true, ["p.scrivx"], .ok roots⟩

/-- A source path that does not exist. -/
def srcMissing : SourceDir := ⟨"/nope", false, true, [], .ok []⟩

/-! ### Lemmas about the sanitizer pipeline -/

theorem mem_dropEnds {p : Char → Bool} {l : List Char} {c : Char}
    (h : c ∈ dropEnds p l) : c ∈ l := by
  unfold dropEnds at h
  rw [List.mem_reverse] at h
  have h₂ : c ∈ (l.dropWhile p).reverse :=
    (List.dropWhile_suffix p).mem h
  rw [List.mem_reverse] at h₂
  exact (List.dropWhile_suffix p).mem h₂

theorem dropWhile_eq_self_of_head? {p : Char → Bool} {l : List Char}
    (h : ∀ c, l.head? = some c → p c = false) : l.dropWhile p = l := by
  cases l with
  | nil => rfl
  | cons a t => simp [List.dropWhile_cons, h a rfl]

theorem head?_dropWhile_false {p : Char → Bool} {l : List Char} {c : Char}
    (h : (l.dropWhile p).head? = some c) : p c = false := by
  have := List.head?_dropWhile_not p l
  rw [h] at this
  exact this

theorem getLast?_dropWhile_of_ne_nil {p : Char → Bool} :
    ∀ {l : List Char}, l.dropWhile p ≠ [] →
      (l.dropWhile p).getLast? = l.getLast? := by
  intro l
  induction l with
  | nil => intro h; exact absurd rfl h
  | cons a t ih =>
      intro h
      rw [List.dropWhile_cons] at h ⊢
      by_cases hp : p a
      · simp only [hp, if_true] at h ⊢
        have ht : t ≠ [] := by
          intro ht; rw [ht] at h; exact h rfl
        rw [ih h]
        cases t with
        | nil => exact absurd rfl ht
        | cons b r => rw [List.getLast?_cons_cons]
      · simp [hp] at h ⊢

theorem head?_dropEnds_false {p : Char → Bool} {l : List Char} {c : Char}
    (h : (dropEnds p l).head? = some c) : p c = false := by
  unfold dropEnds at h
  rw [List.head?_reverse] at h
  by_cases hm : (l.dropWhile p).reverse.dropWhile p = []
  · rw [hm] at h; exact absurd h (by simp)
  · rw [getLast?_dropWhile_of_ne_nil hm, List.getLast?_eq_head?_reverse,
      List.reverse_reverse] at h
    exact head?_dropWhile_false h

theorem getLast?_dropEnds_false {p : Char → Bool} {l : List Char} {c : Char}
    (h : (dropEnds p l).getLast? = some c) : p c = false := by
  unfold dropEnds at h
  rw [List.getLast?_eq_head?_reverse, List.reverse_reverse] at h
  exact head?_dropWhile_false h

theorem dropEnds_eq_self {p : Char → Bool} {l : List Char}
    (hh : ∀ c, l.head? = some c → p c = false)
    (hl : ∀ c, l.getLast? = some c → p c = false) : dropEnds p l = l := by
  unfold dropEnds
  rw [dropWhile_eq_self_of_head? hh]
  rw [dropWhile_eq_self_of_head? (fun c hc => hl c (by
    rw [List.getLast?_eq_head?_reverse]; exact hc))]
  exact List.reverse_reverse l

theorem mem_collapseDashes {c : Char} :
    ∀ {l : List Char}, c ∈ collapseDashes l → c ∈ l := by
  intro l
  induction l with
  | nil => intro h; exact h
  | cons a t ih =>
      cases t with
      | nil => intro h; exact h
      | cons b r =>
          intro h
          rw [collapseDashes] at h
          by_cases hd : a = '-' && b = '-'
          · rw [if_pos hd] at h
            exact List.mem_cons_of_mem a (ih h)
          · rw [if_neg hd] at h
            rcases List.mem_cons.mp h with rfl | h₂
            · exact List.mem_cons_self c _
            · exact List.mem_cons_of_mem a (ih h₂)

theorem head?_collapseDashes :
    ∀ (l : List Char), (collapseDashes l).head? = l.head? := by
  intro l
  induction l with
  | nil => rfl
  | cons a t ih =>
      cases t with
      | nil => rfl
      | cons b r =>
          rw [collapseDashes]
          by_cases hd : a = '-' && b = '-'
          · rw [if_pos hd, ih]
            have ha : a = '-' := by
              rcases Bool.and_eq_true_iff.mp hd with ⟨h₁, _⟩
              exact decide_eq_true_eq.mp h₁
            have hb : b = '-' := by
              rcases Bool.and_eq_true_iff.mp hd with ⟨_, h₂⟩
              exact decide_eq_true_eq.mp h₂
            rw [ha, hb]; rfl
          · rw [if_neg hd]; rfl

theorem collapseDashes_ne_nil {a : Char} {t : List Char} :
    collapseDashes (a :: t) ≠ [] := by
  intro h
  have := head?_collapseDashes (a :: t)
  rw [h] at this
  exact absurd this (by simp)

theorem getLast?_collapseDashes :
    ∀ (l : List Char), (collapseDashes l).getLast? = l.getLast? := by
  intro l
  induction l with
  | nil => rfl
  | cons a t ih =>
      cases t with
      | nil => rfl
      | cons b r =>
          rw [collapseDashes]
          by_cases hd : a = '-' && b = '-'
          · rw [if_pos hd, ih, List.getLast?_cons_cons]
          · rw [if_neg hd]
            cases hc : collapseDashes (b :: r) with
            | nil => exact absurd hc collapseDashes_ne_nil
            | cons x xs =>
                rw [List.getLast?_cons_cons, ← hc, ih,
                  List.getLast?_cons_cons]

theorem collapseDashes_idem :
    ∀ (l : List Char), collapseDashes (collapseDashes l) = collapseDashes l := by
  intro l
  induction l with
  | nil => rfl
  | cons a t ih =>
      cases t with
      | nil => rfl
      | cons b r =>
          rw [collapseDashes]
          by_cases hd : a = '-' && b = '-'
          · rw [if_pos hd, ih]
          · rw [if_neg hd]
            cases hc : collapseDashes (b :: r) with
            | nil => exact absurd hc collapseDashes_ne_nil
            | cons x xs =>
                have hx : x = b := by
                  have := head?_collapseDashes (b :: r)
                  rw [hc] at this
                  exact (Option.some.injEq _ _).mp this
                rw [collapseDashes, hx, if_neg hd, ← hx, ← hc, ih]

theorem badChar_replaceBad {c : Char} {l : List Char}
    (h : c ∈ replaceBad l) : badChar c = false := by
  unfold replaceBad at h
  rcases List.mem_map.mp h with ⟨d, _, hd⟩
  by_cases hb : badChar d
  · rw [if_pos hb] at hd; rw [← hd]; rfl
  · rw [if_neg hb] at hd; rw [← hd]; exact Bool.of_not_eq_true hb

theorem replaceBad_eq_self {l : List Char}
    (h : ∀ c ∈ l, badChar c = false) : replaceBad l = l := by
  unfold replaceBad
  induction l with
  | nil => rfl
  | cons a t ih =>
      rw [List.map_cons, h a (List.mem_cons_self a t),
        ih (fun c hc => h c (List.mem_cons_of_mem a hc))]
      simp

theorem badChar_sanitizeCore {c : Char} {l : List Char}
    (h : c ∈ sanitizeCore l) : badChar c = false :=
  badChar_replaceBad (mem_dropEnds (mem_collapseDashes h))

theorem sanitizeCore_idem (l : List Char) :
    sanitizeCore (sanitizeCore l) = sanitizeCore l := by
  have hrb : replaceBad (sanitizeCore l) = sanitizeCore l :=
    replaceBad_eq_self (fun c hc => badChar_sanitizeCore hc)
  have hde : dropEnds dotSpace (sanitizeCore l) = sanitizeCore l := by
    apply dropEnds_eq_self
    · intro c hc
      unfold sanitizeCore at hc
      rw [head?_collapseDashes] at hc
      exact head?_dropEnds_false hc
    · intro c hc
      unfold sanitizeCore at hc
      rw [getLast?_collapseDashes] at hc
      exact getLast?_dropEnds_false hc
  show collapseDashes (dropEnds dotSpace (replaceBad (sanitizeCore l)))
      = sanitizeCore l
  rw [hrb, hde]
  exact collapseDashes_idem _

theorem sanitize_filename_eq_of_empty {s : String}
    (h : (sanitizeCore s.data).isEmpty) : sanitize_filename s = "Untitled" := by
  simp only [sanitize_filename]
  rw [if_pos h]

theorem sanitize_filename_eq_of_nonempty {s : String}
    (h : ¬(sanitizeCore s.data).isEmpty) :
    sanitize_filename s = String.mk (sanitizeCore s.data) := by
  simp only [sanitize_filename]
  rw [if_neg h]

/-- Claim C3: sanitize_filename is idempotent, its result never
contains a problematic character, it is total and always returns a
non-empty string, and it maps the empty string to "Untitled". -/
theorem c3_sanitize_filename_spec :
    ∀ x : String,
      sanitize_filename (sanitize_filename x) = sanitize_filename x ∧
      (∀ c ∈ (sanitize_filename x).data, badChar c = false) ∧
      sanitize_filename x ≠ "" ∧
      sanitize_filename "" = "Untitled" := by
  intro x
  by_cases h : (sanitizeCore x.data).isEmpty
  · rw [sanitize_filename_eq_of_empty h]
    refine ⟨by decide, ?_, by decide, rfl⟩
    have : ∀ c ∈ String.data "Untitled", badChar c = false := by decide
    exact this
  · rw [sanitize_filename_eq_of_nonempty h]
    have hdata : (String.mk (sanitizeCore x.data)).data = sanitizeCore x.data :=
      rfl
    refine ⟨?_, ?_, ?_, rfl⟩
    · by_cases h₂ : (sanitizeCore (String.mk (sanitizeCore x.data)).data).isEmpty
      · exfalso
        rw [hdata, sanitizeCore_idem] at h₂
        exact h h₂
      · rw [sanitize_filename_eq_of_nonempty h₂, hdata, sanitizeCore_idem]
    · intro c hc
      rw [hdata] at hc
      exact badChar_sanitizeCore hc
    · intro he
      have : (String.mk (sanitizeCore x.data)).data = String.data "" :=
        congrArg String.data he
      rw [hdata] at this
      rw [List.isEmpty_iff] at h
      exact h this

/-- Witness for C3 at a concrete input: idempotence at "a?b" and the
character-class guarantee at its member character. -/
theorem c3_witness :
    sanitize_filename (sanitize_filename "a?b") = sanitize_filename "a?b" ∧
      badChar 'a' = false :=
  ⟨(c3_sanitize_filename_spec "a?b").1,
    (c3_sanitize_filename_spec "a?b").2.1 'a' (by decide)⟩

/-! ### Path segments (claim C4) -/

/-- Claim C4 counterexample: at sibling position 99 the prefix is the
three digits 100, so the segment is not a 2-digit position followed by
a space and the sanitized title — its length exceeds that format by
one. -/
theorem c4_counterexample :
    segName text99 = "100 T" ∧
      (segName text99).length ≠
        2 + 1 + (sanitize_filename text99.title).length := by
  constructor
  · rfl
  · decide

/-- Claim C4 (amended): each segment is the 1-based sibling position
zero-padded to at least two digits — exactly two digits whenever the
position is at most 98 — followed by a space and the sanitized title;
positions 0 and 1 give prefixes 01 and 02 regardless of the title, and
a root-level entry has an empty ancestor segment list. -/
theorem c4_amended :
    ∀ it : BinderItem,
      segName it = pad2 (it.position + 1) ++ " " ++ sanitize_filename it.title ∧
      (it.position = 0 → (segName it).data.take 3 = ['0', '1', ' ']) ∧
      (it.position = 1 → (segName it).data.take 3 = ['0', '2', ' ']) ∧
      (it.position < 99 → (pad2 (it.position + 1)).length = 2) ∧
      get_item_path [] = [] := by
  intro it
  refine ⟨rfl, ?_, ?_, ?_, rfl⟩
  · intro h
    rw [show segName it = pad2 (it.position + 1) ++ " " ++
      sanitize_filename it.title from rfl, h]
    rw [show pad2 (0 + 1) ++ " " = "01 " from rfl, String.data_append]
    exact List.take_left' rfl
  · intro h
    rw [show segName it = pad2 (it.position + 1) ++ " " ++
      sanitize_filename it.title from rfl, h]
    rw [show pad2 (1 + 1) ++ " " = "02 " from rfl, String.data_append]
    exact List.take_left' rfl
  · intro h
    have hb : ∀ n, n < 99 → (pad2 (n + 1)).length = 2 := by decide
    exact hb it.position h

/-- Witness for C4 at concrete positions 0, 1 and a position below
99. -/
theorem c4_witness :
    (segName textA).data.take 3 = ['0', '1', ' '] ∧
      (segName textB).data.take 3 = ['0', '2', ' '] ∧
      (pad2 (textA.position + 1)).length = 2 :=
  ⟨(c4_amended textA).2.1 rfl, (c4_amended textB).2.2.1 rfl,
    (c4_amended textA).2.2.2.1 (by decide)⟩

/-! ### Rich-text extraction (claim C7) -/

/-- Claim C7: read_rtf returns the empty string when the file does not
exist or its content is whitespace-only, returns the trimmed flattened
text when flattening succeeds, and turns a flattening failure into the
empty string instead of propagating it (the catch is total in the
model). -/
theorem c7_read_rtf_best_effort :
    ∀ (f : RtfFile) (flatten : String → Except String String),
      (f.exists_ = false → read_rtf f flatten = "") ∧
      (pyStripWs f.content = "" → read_rtf f flatten = "") ∧
      (∀ t, f.exists_ = true → pyStripWs f.content ≠ "" →
        flatten f.content = .ok t → read_rtf f flatten = pyStripWs t) ∧
      (∀ e, f.exists_ = true → pyStripWs f.content ≠ "" →
        flatten f.content = .error e → read_rtf f flatten = "") := by
  intro f fl
  refine ⟨?_, ?_, ?_, ?_⟩
  · intro h
    simp [read_rtf, h]
  · intro h
    by_cases he : f.exists_ = false
    · simp [read_rtf, he]
    · simp [read_rtf, he, h]
  · intro t he hs hf
    simp [read_rtf, he, hs, hf]
  · intro e he hs hf
    simp [read_rtf, he, hs, hf]

/-- Witness for C7: a missing file reads as empty, and an existing
file whose flattening succeeds reads as the trimmed flattened text. -/
theorem c7_witness :
    read_rtf ⟨false, "x"⟩ (fun s => Except.ok s) = "" ∧
      read_rtf ⟨true, "a"⟩ (fun _ => Except.ok " hi ") = "hi" := by
  constructor
  · exact (c7_read_rtf_best_effort ⟨false, "x"⟩ (fun s => Except.ok s)).1 rfl
  · have h := (c7_read_rtf_best_effort ⟨true, "a"⟩
      (fun _ => Except.ok " hi ")).2.2.1 " hi " rfl (by decide) rfl
    rw [h]
    rfl

/-! ### Markdown generation (claims C5 and C6) -/

theorem prefixed_ne_fence (p : String) {c : Char}
    (hp : p.data.head? = some c) (hc : c ≠ '-') (x : String) :
    p ++ x ≠ "---" := by
  intro h
  have hd := congrArg String.data h
  rw [String.data_append] at hd
  cases hpd : p.data with
  | nil => rw [hpd] at hp; simp at hp
  | cons a r =>
      rw [hpd] at hp hd
      have ha : a = c := by simpa using hp
      have hfence : a = '-' := by
        have h2 := congrArg List.head? hd
        simpa using h2
      exact hc (ha.symm.trans hfence)

theorem synopsisLines_ne_fence (sy : Option String) :
    ∀ line ∈ synopsisLines sy, line ≠ "---" := by
  intro line hl
  cases sy with
  | none => simp [synopsisLines] at hl
  | some s =>
      simp only [synopsisLines] at hl
      by_cases h1 : s.isEmpty
      · rw [if_pos h1] at hl; simp at hl
      · rw [if_neg h1] at hl
        by_cases h2 : s.data.contains '\n'
        · rw [if_pos h2] at hl
          rcases List.mem_cons.mp hl with rfl | h3
          · decide
          · rcases List.mem_map.mp h3 with ⟨x, _, rfl⟩
            exact prefixed_ne_fence "  " rfl (by decide) x
        · rw [if_neg h2] at hl
          rcases List.mem_singleton.mp hl with rfl
          rw [String.append_assoc]
          exact prefixed_ne_fence "synopsis: \"" rfl (by decide) _

theorem tagLines_ne_fence (l st : Option String) :
    ∀ line ∈ tagLines l st, line ≠ "---" := by
  intro line hl
  unfold tagLines at hl
  by_cases h : (tagList l st).isEmpty
  · rw [if_pos h] at hl; simp at hl
  · rw [if_neg h] at hl
    rcases List.mem_cons.mp hl with rfl | h3
    · decide
    · rcases List.mem_map.mp h3 with ⟨x, _, rfl⟩
      exact prefixed_ne_fence "  - " rfl (by decide) x

theorem title_line_ne_fence (t : String) :
    ("title: \"" ++ escapeQ t ++ "\"") ≠ "---" := by
  rw [String.append_assoc]
  exact prefixed_ne_fence "title: \"" rfl (by decide) _

theorem include_line_ne_fence (b : Bool) :
    ("include_in_compile: " ++ (if b then "true" else "false")) ≠ "---" :=
  prefixed_ne_fence "include_in_compile: " rfl (by decide) _

theorem mdLines_eq (t c : String) (sy no l st : Option String) (inc : Bool) :
    mdLines t c sy no l st inc =
      "---" :: ("title: \"" ++ escapeQ t ++ "\"") ::
        (synopsisLines sy ++ (tagLines l st ++
          (("include_in_compile: " ++ (if inc then "true" else "false")) ::
            "---" :: "" :: bodyLines c no))) := by
  simp [mdLines, List.append_assoc]

theorem frontmatter_mdLines (t c : String) (sy no l st : Option String)
    (inc : Bool) :
    frontmatter (mdLines t c sy no l st inc) =
      ("title: \"" ++ escapeQ t ++ "\"") ::
        (synopsisLines sy ++ (tagLines l st ++
          ["include_in_compile: " ++ (if inc then "true" else "false")])) := by
  rw [mdLines_eq]
  unfold frontmatter
  rw [List.drop_succ_cons, List.drop_zero, List.takeWhile_cons]
  rw [if_pos (bne_iff_ne.mpr (title_line_ne_fence t))]
  rw [List.takeWhile_append_of_pos
    (fun a ha => bne_iff_ne.mpr (synopsisLines_ne_fence sy a ha))]
  rw [List.takeWhile_append_of_pos
    (fun a ha => bne_iff_ne.mpr (tagLines_ne_fence l st a ha))]
  rw [List.takeWhile_cons, if_pos (bne_iff_ne.mpr (include_line_ne_fence inc))]
  simp [List.takeWhile_cons]

theorem isEmpty_false_of_ne {v : String} (h : v ≠ "") :
    v.isEmpty = false := by
  cases hb : v.isEmpty
  · rfl
  · exact absurd ((String.isEmpty_iff v).mp hb) h

theorem truthy_some_of_ne {v : String} (h : v ≠ "") :
    truthy (some v) = true := by
  simp [truthy, isEmpty_false_of_ne h]

theorem slug_chars (s : String) :
    ∀ ch ∈ (slug s).data, slugChar ch = true := by
  intro ch hch
  have hch₂ : ch ∈ ((pyLower s).data.map
      (fun c => if slugChar c then c else '-')) := hch
  rcases List.mem_map.mp hch₂ with ⟨d, _, rfl⟩
  by_cases h : slugChar d
  · rw [if_pos h]; exact h
  · rw [if_neg h]; decide

/-- Claim C5: generate_markdown renders a frontmatter block opening
with a fence and consisting exactly of the quote-escaped title line,
the synopsis lines, the tag lines, and the lowercase compile flag;
tags hold zero, one, or two slugged entries exactly when label/status
are non-empty; slugs stay in the slug character class; and the
specified concrete example renders to the specified lines. -/
theorem c5_generate_markdown_frontmatter :
    ∀ (t c : String) (sy no l st : Option String) (inc : Bool),
      (mdLines t c sy no l st inc).head? = some "---" ∧
      frontmatter (mdLines t c sy no l st inc) =
        ("title: \"" ++ escapeQ t ++ "\"") ::
          (synopsisLines sy ++ (tagLines l st ++
            ["include_in_compile: " ++ (if inc then "true" else "false")])) ∧
      tagLines none none = [] ∧
      (∀ v : String, v ≠ "" →
        tagLines (some v) none = ["tags:", "  - label/" ++ slug v]) ∧
      (∀ v : String, v ≠ "" →
        tagLines none (some v) = ["tags:", "  - status/" ++ slug v]) ∧
      (∀ v w : String, v ≠ "" → w ≠ "" →
        tagLines (some v) (some w) =
          ["tags:", "  - label/" ++ slug v, "  - status/" ++ slug w]) ∧
      (∀ s : String, ∀ ch ∈ (slug s).data, slugChar ch = true) ∧
      mdLines "A \"Quoted\" Title" "Hello" none none (some "Final Draft")
          (some "Done") true =
        ["---", "title: \"A \\\"Quoted\\\" Title\"", "tags:",
          "  - label/final-draft", "  - status/done",
          "include_in_compile: true", "---", "", "Hello", ""] := by
  intro t c sy no l st inc
  refine ⟨?_, frontmatter_mdLines t c sy no l st inc, rfl, ?_, ?_, ?_,
    slug_chars, by decide⟩
  · rw [mdLines_eq]; rfl
  · intro v hv
    have h1 : tagList (some v) none = ["label/" ++ slug v] := by
      simp [tagList, truthy, isEmpty_false_of_ne hv]
    simp only [tagLines, h1]
    rw [if_neg (by simp)]
    rw [List.map_cons, ← String.append_assoc]
    rfl
  · intro v hv
    have h1 : tagList none (some v) = ["status/" ++ slug v] := by
      simp [tagList, truthy, isEmpty_false_of_ne hv]
    simp only [tagLines, h1]
    rw [if_neg (by simp)]
    rw [List.map_cons, ← String.append_assoc]
    rfl
  · intro v w hv hw
    have h1 : tagList (some v) (some w) =
        ["label/" ++ slug v, "status/" ++ slug w] := by
      simp [tagList, truthy, isEmpty_false_of_ne hv, isEmpty_false_of_ne hw]
    simp only [tagLines, h1]
    rw [if_neg (by simp)]
    rw [List.map_cons, List.map_cons, ← String.append_assoc,
      ← String.append_assoc]
    rfl

/-- Witness for C5: the tag cases and the slug class at concrete
values. -/
theorem c5_witness :
    tagLines (some "Final Draft") none = ["tags:", "  - label/final-draft"] ∧
      tagLines none (some "Done") = ["tags:", "  - status/done"] :=
  ⟨by
    have h := (c5_generate_markdown_frontmatter "t" "" none none
      (some "Final Draft") none true).2.2.2.1 "Final Draft" (by decide)
    rw [h]
    rfl,
   by
    have h := (c5_generate_markdown_frontmatter "t" "" none none none
      (some "Done") true).2.2.2.2.1 "Done" (by decide)
    rw [h]
    rfl⟩

theorem mdLines_drop_two (t c : String) (sy no l st : Option String)
    (inc : Bool) :
    (mdLines t c sy no l st inc).drop 2 =
      synopsisLines sy ++ (tagLines l st ++
        (("include_in_compile: " ++ (if inc then "true" else "false")) ::
          "---" :: "" :: bodyLines c no)) := by
  rw [mdLines_eq]
  rfl

/-- Claim C6: a non-empty synopsis holding a newline renders as a
literal block headed by a pipe with every line indented two spaces,
while a single-line synopsis renders as one quoted scalar; the
specified two-line example renders to the specified lines. -/
theorem c6_synopsis_rendering :
    ∀ (t c : String) (no l st : Option String) (inc : Bool) (s : String),
      s ≠ "" →
      ('\n' ∈ s.data →
        ((mdLines t c (some s) no l st inc).drop 2).take
            ((pySplitNl s).length + 1) =
          "synopsis: |" :: (pySplitNl s).map (fun line => "  " ++ line)) ∧
      ('\n' ∉ s.data →
        ((mdLines t c (some s) no l st inc).drop 2).head? =
          some ("synopsis: \"" ++ escapeQ s ++ "\"")) ∧
      mdLines "T" "" (some "Line1\nLine2") none none none false =
        ["---", "title: \"T\"", "synopsis: |", "  Line1", "  Line2",
          "include_in_compile: false", "---", ""] := by
  intro t c no l st inc s hs
  refine ⟨?_, ?_, by decide⟩
  · intro hnl
    have hc : s.data.contains '\n' = true := by
      simpa [List.contains] using hnl
    have hsl : synopsisLines (some s) =
        "synopsis: |" :: (pySplitNl s).map (fun line => "  " ++ line) := by
      simp [synopsisLines, isEmpty_false_of_ne hs, hnl]
    rw [mdLines_drop_two, hsl]
    exact List.take_left' (by simp)
  · intro hnl
    have hc : s.data.contains '\n' = false := by
      simpa [List.contains] using hnl
    have hsl : synopsisLines (some s) =
        ["synopsis: \"" ++ escapeQ s ++ "\""] := by
      simp [synopsisLines, isEmpty_false_of_ne hs, hnl]
    rw [mdLines_drop_two, hsl]
    rfl

/-- Witness for C6: the two-line synopsis block and a one-line quoted
synopsis at concrete inputs. -/
theorem c6_witness :
    ((mdLines "T" "" (some "Line1\nLine2") none none none false).drop 2).take 3
        = ["synopsis: |", "  Line1", "  Line2"] ∧
      ((mdLines "T" "" (some "One") none none none false).drop 2).head? =
        some ("synopsis: \"One\"") := by
  constructor
  · have h := (c6_synopsis_rendering "T" "" none none none false
      "Line1\nLine2" (by decide)).1 (by decide)
    exact h
  · have h := (c6_synopsis_rendering "T" "" none none none false
      "One" (by decide)).2.1 (by decide)
    rw [h]
    rfl

/-! ### Lemmas about the conversion loop and the result accumulator -/

theorem filterMap_flatMap {α β γ : Type} (l : List α) (g : α → List β)
    (f : β → Option γ) :
    (l.flatMap g).filterMap f = l.flatMap (fun x => (g x).filterMap f) := by
  induction l with
  | nil => rfl
  | cons a t ih => simp [List.flatMap_cons, List.filterMap_append, ih]

theorem flatMap_ite_singleton {α β : Type} (l : List α) (c : α → Bool)
    (o : α → β) :
    l.flatMap (fun x => if c x then [o x] else []) = (l.filter c).map o := by
  induction l with
  | nil => rfl
  | cons a t ih =>
      by_cases h : c a <;>
        simp [List.flatMap_cons, h, ih, List.filter_cons]

theorem is_text_false_of_is_folder {it : BinderItem}
    (h : it.is_folder = true) : it.is_text = false := by
  cases it with
  | mk u t ty inc lab st p cs =>
      by_cases hty : ty = "Text"
      · subst hty
        have hf : (BinderItem.mk u t "Text" inc lab st p cs).is_folder
            = false := rfl
        rw [hf] at h
        exact absurd h (by decide)
      · simp [BinderItem.is_text, BinderItem.item_type, hty]

theorem processItem_filterMap_writePath (env : ContentEnv)
    (anc : List BinderItem) (it : BinderItem) :
    (processItem env noExc anc it).filterMap writePath =
      if !it.is_trash && !(anc.any fun a => a.is_trash) && it.is_text then
        [get_item_path anc ++ [segName it ++ ".md"]]
      else [] := by
  unfold processItem
  by_cases h1 : it.is_trash
  · simp [h1, writePath]
  · by_cases h2 : anc.any fun a => a.is_trash
    · simp [h1, h2, writePath]
    · simp only [noExc]
      by_cases h3 : it.is_folder
      · simp [h1, h2, h3, is_text_false_of_is_folder h3, writePath]
      · by_cases h4 : it.is_text
        · cases hp : (get_item_path anc).isEmpty <;>
            simp [h1, h2, h3, h4, hp, writePath, List.filterMap_append]
        · simp [h1, h2, h3, h4, writePath]

theorem processItem_filterMap_folderPath (env : ContentEnv)
    (anc : List BinderItem) (it : BinderItem) :
    (processItem env noExc anc it).filterMap folderPath =
      if !it.is_trash && !(anc.any fun a => a.is_trash) && it.is_folder then
        [get_item_path anc ++ [segName it]]
      else [] := by
  unfold processItem
  by_cases h1 : it.is_trash
  · simp [h1, folderPath]
  · by_cases h2 : anc.any fun a => a.is_trash
    · simp [h1, h2, folderPath]
    · simp only [noExc]
      by_cases h3 : it.is_folder
      · simp [h1, h2, h3, folderPath]
      · by_cases h4 : it.is_text
        · cases hp : (get_item_path anc).isEmpty <;>
            simp [h1, h2, h3, h4, hp, folderPath, List.filterMap_append]
        · simp [h1, h2, h3, h4, folderPath]

theorem processItem_filterMap_skipMsg (env : ContentEnv) (exc : ExcOracle)
    (anc : List BinderItem) (it : BinderItem) :
    (processItem env exc anc it).filterMap skipMsg =
      if it.is_trash then [it.title ++ " (trash)"] else [] := by
  unfold processItem
  by_cases h1 : it.is_trash
  · simp [h1, skipMsg]
  · by_cases h2 : anc.any fun a => a.is_trash
    · simp [h1, h2, skipMsg]
    · cases hexc : exc it with
      | some e => simp [h1, h2, hexc, skipMsg]
      | none =>
          by_cases h3 : it.is_folder
          · simp [h1, h2, hexc, h3, skipMsg]
          · by_cases h4 : it.is_text
            · cases hp : (get_item_path anc).isEmpty <;>
                simp [h1, h2, hexc, h3, h4, hp, skipMsg,
                  List.filterMap_append]
            · simp [h1, h2, hexc, h3, h4, skipMsg]

theorem agg_errors (evs : List Ev) :
    ∀ r : ConversionResult,
      (evs.foldl aggStep r).errors = r.errors ++ evs.filterMap errMsg := by
  induction evs with
  | nil => intro r; simp
  | cons e t ih =>
      intro r
      rw [List.foldl_cons, ih]
      cases e <;> simp [aggStep, errMsg]

theorem agg_skipped (evs : List Ev) :
    ∀ r : ConversionResult,
      (evs.foldl aggStep r).skipped = r.skipped ++ evs.filterMap skipMsg := by
  induction evs with
  | nil => intro r; simp
  | cons e t ih =>
      intro r
      rw [List.foldl_cons, ih]
      cases e <;> simp [aggStep, skipMsg]

theorem agg_docs (evs : List Ev) :
    ∀ r : ConversionResult,
      (evs.foldl aggStep r).documents_converted =
        r.documents_converted + (evs.filterMap writePath).length := by
  induction evs with
  | nil => intro r; simp
  | cons e t ih =>
      intro r
      rw [List.foldl_cons, ih]
      cases e <;> simp [aggStep, writePath]
      omega

theorem agg_folders (evs : List Ev) :
    ∀ r : ConversionResult,
      (evs.foldl aggStep r).folders_created =
        r.folders_created + (evs.filterMap folderPath).length := by
  induction evs with
  | nil => intro r; simp
  | cons e t ih =>
      intro r
      rw [List.foldl_cons, ih]
      cases e <;> simp [aggStep, folderPath]
      omega

theorem agg_success (evs : List Ev) :
    ∀ r : ConversionResult, (evs.foldl aggStep r).success = r.success := by
  induction evs with
  | nil => intro r; rfl
  | cons e t ih =>
      intro r
      rw [List.foldl_cons, ih]
      cases e <;> rfl

theorem aggregate_errors (evs : List Ev) :
    (aggregate evs).errors = evs.filterMap errMsg := by
  unfold aggregate
  rw [agg_errors]
  rfl

theorem aggregate_success (evs : List Ev) :
    (aggregate evs).success = true := by
  unfold aggregate
  rw [agg_success]

theorem finalize_errors (r : ConversionResult) :
    (finalize r).errors = r.errors := by
  unfold finalize
  split <;> rfl

theorem finalize_docs (r : ConversionResult) :
    (finalize r).documents_converted = r.documents_converted := by
  unfold finalize
  split <;> rfl

theorem finalize_folders (r : ConversionResult) :
    (finalize r).folders_created = r.folders_created := by
  unfold finalize
  split <;> rfl

theorem finalize_skipped (r : ConversionResult) :
    (finalize r).skipped = r.skipped := by
  unfold finalize
  split <;> rfl

theorem finalize_success_of_empty {r : ConversionResult}
    (h : r.errors = []) : (finalize r).success = r.success := by
  unfold finalize
  rw [if_pos (by simp [h])]

theorem finalize_success_of_nonempty {r : ConversionResult}
    (h : r.errors ≠ []) :
    (finalize r).success = decide (r.errors.length < r.documents_converted) := by
  unfold finalize
  rw [if_neg (by simpa using h)]

theorem convert_project_ok {d : SourceDir} {env : ContentEnv}
    {exc : ExcOracle} {roots : List BinderItem}
    (h : openProject d = .ok roots) :
    convert_project d env exc =
      (finalize (aggregate (convertEvents env exc roots)),
        convertEvents env exc roots) := by
  unfold convert_project
  rw [h]

theorem convert_project_error {d : SourceDir} {env : ContentEnv}
    {exc : ExcOracle} {e : String} (h : openProject d = .error e) :
    convert_project d env exc =
      (⟨false, 0, 0, ["Could not open project: " ++ e], []⟩, []) := by
  unfold convert_project
  rw [h]

/-! ### The conversion walk (claim C1) -/

/-- Claim C1 counterexample: with a TrashFolder nested inside another
TrashFolder, the nested descendant is not skipped silently — it adds
its own skip notice, so the run records two notices rather than the
single one the claim admits for this project. -/
theorem c1_counterexample :
    (convertEvents envEmpty noExc [trashRoot]).filterMap skipMsg =
        ["Trash (trash)", "Nested (trash)"] ∧
      processItem envEmpty noExc [trashRoot] trashNested =
        [Ev.skip ("Nested" ++ " (trash)")] := by
  constructor
  · decide
  · decide

/-- Claim C1 (amended): over the full walk with the no-failure oracle,
the writes are exactly one Markdown file per Text entry that is not
trash and has no trash ancestor, the counted directory creations are
exactly one per folder-kind entry likewise outside trash, the skip
notices are exactly one per TrashFolder entry (including TrashFolder
entries nested beneath trash), and an entry beneath trash that is not
itself a TrashFolder is processed with no event at all. -/
theorem c1_amended :
    ∀ (env : ContentEnv) (roots : List BinderItem),
      (convertEvents env noExc roots).filterMap writePath =
        ((walkWithL roots []).filter (fun p =>
          !p.2.is_trash && !(p.1.any fun a => a.is_trash) && p.2.is_text)).map
          (fun p => get_item_path p.1 ++ [segName p.2 ++ ".md"]) ∧
      (convertEvents env noExc roots).filterMap folderPath =
        ((walkWithL roots []).filter (fun p =>
          !p.2.is_trash && !(p.1.any fun a => a.is_trash) &&
            p.2.is_folder)).map
          (fun p => get_item_path p.1 ++ [segName p.2]) ∧
      (convertEvents env noExc roots).filterMap skipMsg =
        ((walkWithL roots []).filter (fun p => p.2.is_trash)).map
          (fun p => p.2.title ++ " (trash)") ∧
      (∀ (anc : List BinderItem) (it : BinderItem),
        (anc.any fun a => a.is_trash) = true → it.is_trash = false →
        processItem env noExc anc it = []) := by
  intro env roots
  refine ⟨?_, ?_, ?_, ?_⟩
  · show (Ev.mkdirRoot :: (walkWithL roots []).flatMap
      (fun p => processItem env noExc p.1 p.2)).filterMap writePath = _
    rw [List.filterMap_cons]
    simp only [writePath]
    rw [filterMap_flatMap]
    simp only [processItem_filterMap_writePath]
    exact flatMap_ite_singleton _ _ _
  · show (Ev.mkdirRoot :: (walkWithL roots []).flatMap
      (fun p => processItem env noExc p.1 p.2)).filterMap folderPath = _
    rw [List.filterMap_cons]
    simp only [folderPath]
    rw [filterMap_flatMap]
    simp only [processItem_filterMap_folderPath]
    exact flatMap_ite_singleton _ _ _
  · show (Ev.mkdirRoot :: (walkWithL roots []).flatMap
      (fun p => processItem env noExc p.1 p.2)).filterMap skipMsg = _
    rw [List.filterMap_cons]
    simp only [skipMsg]
    rw [filterMap_flatMap]
    simp only [processItem_filterMap_skipMsg]
    exact flatMap_ite_singleton _ _ _
  · intro anc it h1 h2
    simp [processItem, h1, h2]

/-- Witness for C1: a non-trash entry beneath a trash ancestor is
processed silently at a concrete input. -/
theorem c1_witness :
    processItem envEmpty noExc [trashRoot] textA = [] :=
  (c1_amended envEmpty []).2.2.2 [trashRoot] textA (by decide) (by decide)

/-! ### Final success policy (claims C2 and C10) -/

/-- Claim C2: once the project opens, the run is marked failed only
when the recorded errors reach or exceed the converted documents; with
at least one error but strictly more converted documents, the run
still reports success. -/
theorem c2_success_threshold :
    ∀ (d : SourceDir) (env : ContentEnv) (exc : ExcOracle)
      (roots : List BinderItem), openProject d = .ok roots →
      ((convert_project d env exc).1.success = false →
        (convert_project d env exc).1.documents_converted ≤
          (convert_project d env exc).1.errors.length) ∧
      (1 ≤ (convert_project d env exc).1.errors.length →
        (convert_project d env exc).1.errors.length <
          (convert_project d env exc).1.documents_converted →
        (convert_project d env exc).1.success = true) := by
  intro d env exc roots h
  rw [convert_project_ok h]
  constructor
  · intro hf
    rw [finalize_errors, finalize_docs]
    by_cases he : (aggregate (convertEvents env exc roots)).errors = []
    · exfalso
      have hs := finalize_success_of_empty he
      rw [hf] at hs
      have ht : (aggregate (convertEvents env exc roots)).success = true :=
        aggregate_success (convertEvents env exc roots)
      exact absurd (ht.symm.trans hs.symm) (by decide)
    · have hs := finalize_success_of_nonempty he
      rw [hf] at hs
      have := of_decide_eq_false hs.symm
      omega
  · intro h1 h2
    rw [finalize_errors] at h1
    rw [finalize_errors, finalize_docs] at h2
    have he : (aggregate (convertEvents env exc roots)).errors ≠ [] := by
      intro h0
      rw [h0] at h1
      simp at h1
    rw [finalize_success_of_nonempty he]
    exact decide_eq_true h2

/-- Witness for C2: a concrete run converting two documents with one
recorded error still reports success. -/
theorem c2_witness :
    (convert_project (srcOk [textA, textB, textC]) envEmpty excA).1.success
        = true ∧
      (convert_project (srcOk [textA, textB, textC])
        envEmpty excA).1.errors.length = 1 ∧
      (convert_project (srcOk [textA, textB, textC])
        envEmpty excA).1.documents_converted = 2 := by
  refine ⟨?_, by decide, by decide⟩
  exact (c2_success_threshold (srcOk [textA, textB, textC]) envEmpty excA
    [textA, textB, textC] rfl).2 (by decide) (by decide)

/-- Claim C10: when the project opens and the error list stays empty,
the run reports success even with zero documents and zero folders; the
threshold re-evaluation only happens when an error was recorded. -/
theorem c10_no_error_success :
    ∀ (d : SourceDir) (env : ContentEnv) (exc : ExcOracle)
      (roots : List BinderItem),
      openProject d = .ok roots →
      (convert_project d env exc).1.errors = [] →
      (convert_project d env exc).1.success = true := by
  intro d env exc roots hopen herr
  rw [convert_project_ok hopen] at herr ⊢
  rw [finalize_errors] at herr
  rw [finalize_success_of_empty herr]
  exact aggregate_success (convertEvents env exc roots)

/-- Witness for C10: an empty binder converts with zero documents,
zero folders, no errors, and success. -/
theorem c10_witness :
    (convert_project (srcOk []) envEmpty noExc).1.success = true ∧
      (convert_project (srcOk []) envEmpty noExc).1.documents_converted = 0 ∧
      (convert_project (srcOk []) envEmpty noExc).1.folders_created = 0 :=
  ⟨c10_no_error_success (srcOk []) envEmpty noExc [] rfl (by decide),
    by decide, by decide⟩

/-! ### Fatal pre-run failures (claim C8) -/

/-- Claim C8: a source that is missing, not a directory, or without a
project-index file yields a failed result with exactly one error, zero
counts, no skip notices, and an empty event trace — no destination
directory creation and no walk. -/
theorem c8_fatal_prerun :
    ∀ (d : SourceDir) (env : ContentEnv) (exc : ExcOracle),
      (d.exists_ = false ∨ d.isDir = false ∨ findScrivx d.entries = none) →
      (convert_project d env exc).1.success = false ∧
      (convert_project d env exc).1.errors.length = 1 ∧
      (convert_project d env exc).1.documents_converted = 0 ∧
      (convert_project d env exc).1.folders_created = 0 ∧
      (convert_project d env exc).1.skipped = [] ∧
      (convert_project d env exc).2 = [] := by
  intro d env exc h
  have he : ∃ e, openProject d = .error e := by
    by_cases h1 : d.exists_ = false
    · exact ⟨"Project not found: " ++ d.path, by simp [openProject, h1]⟩
    · by_cases h2 : d.isDir = false
      · exact ⟨"Not a directory: " ++ d.path, by simp [openProject, h1, h2]⟩
      · have h3 : findScrivx d.entries = none := by
          rcases h with h | h | h
          · exact absurd h h1
          · exact absurd h h2
          · exact h
        exact ⟨"No .scrivx file found in " ++ d.path,
          by simp [openProject, h1, h2, h3]⟩
  rcases he with ⟨e, he⟩
  rw [convert_project_error he]
  exact ⟨rfl, rfl, rfl, rfl, rfl, rfl⟩

/-- Witness for C8: a missing source path fails with no events. -/
theorem c8_witness :
    (convert_project srcMissing envEmpty noExc).1.success = false ∧
      (convert_project srcMissing envEmpty noExc).1.errors.length = 1 ∧
      (convert_project srcMissing envEmpty noExc).2 = [] :=
  ⟨(c8_fatal_prerun srcMissing envEmpty noExc (Or.inl rfl)).1,
    (c8_fatal_prerun srcMissing envEmpty noExc (Or.inl rfl)).2.1,
    (c8_fatal_prerun srcMissing envEmpty noExc (Or.inl rfl)).2.2.2.2.2⟩

/-! ### Per-item error recovery (claim C9) -/

/-- Claim C9: an exception while processing one walk entry is caught
and recorded as an error tagged with the entry title, in place, and
every later walk entry still contributes its own events — the run is
not aborted. -/
theorem c9_per_item_errors :
    ∀ (d : SourceDir) (env : ContentEnv) (exc : ExcOracle)
      (roots : List BinderItem)
      (l₁ l₂ : List (List BinderItem × BinderItem))
      (anc : List BinderItem) (it : BinderItem) (e : String),
      openProject d = .ok roots →
      walkWithL roots [] = l₁ ++ (anc, it) :: l₂ →
      it.is_trash = false →
      (anc.any fun a => a.is_trash) = false →
      exc it = some e →
      processItem env exc anc it =
        [Ev.err ("Error converting '" ++ it.title ++ "': " ++ e)] ∧
      ("Error converting '" ++ it.title ++ "': " ++ e) ∈
        (convert_project d env exc).1.errors ∧
      (convert_project d env exc).2 =
        Ev.mkdirRoot ::
          (l₁.flatMap (fun p => processItem env exc p.1 p.2) ++
            (Ev.err ("Error converting '" ++ it.title ++ "': " ++ e) ::
              l₂.flatMap (fun p => processItem env exc p.1 p.2))) := by
  intro d env exc roots l₁ l₂ anc it e hopen hwalk htr hanc hexc
  have hpi : processItem env exc anc it =
      [Ev.err ("Error converting '" ++ it.title ++ "': " ++ e)] := by
    simp [processItem, htr, hanc, hexc]
  have htrace : convertEvents env exc roots =
      Ev.mkdirRoot ::
        (l₁.flatMap (fun p => processItem env exc p.1 p.2) ++
          (Ev.err ("Error converting '" ++ it.title ++ "': " ++ e) ::
            l₂.flatMap (fun p => processItem env exc p.1 p.2))) := by
    unfold convertEvents
    rw [hwalk, List.flatMap_append, List.flatMap_cons, hpi]
    simp
  refine ⟨hpi, ?_, ?_⟩
  · rw [convert_project_ok hopen]
    show _ ∈ (finalize (aggregate (convertEvents env exc roots))).errors
    rw [finalize_errors]
    show _ ∈ (aggregate (convertEvents env exc roots)).errors
    rw [aggregate_errors]
    apply List.mem_filterMap.mpr
    refine ⟨Ev.err ("Error converting '" ++ it.title ++ "': " ++ e), ?_, rfl⟩
    rw [htrace]
    apply List.mem_cons_of_mem
    apply List.mem_append_right
    exact List.mem_cons_self _ _
  · rw [convert_project_ok hopen]
    exact htrace

/-- Witness for C9: the failing first entry is recorded and the second
entry is still converted in the same run. -/
theorem c9_witness :
    "Error converting 'A': boom" ∈
      (convert_project (srcOk [textA, textB]) envEmpty excA).1.errors :=
  (c9_per_item_errors (srcOk [textA, textB]) envEmpty excA [textA, textB]
    [] [([], textB)] [] textA "boom" rfl rfl rfl rfl (by decide)).2.1

end Scriv
